import Mathlib

/-!
Verification of the devbox package-set reconciliation engine.

This file gives a shallow embedding of the reconciliation code in
`internal/impl/packages.go` and of the mutagen wrapper in
`internal/cloud/mutagen/wrapper.go`, and proves the specification
claims about them.

External collaborators (the nix store, the lockfile file I/O, the
plugin system, shell generation, the mutagen binary) are modelled by
an explicit environment `Env` of oracles: each external call either
succeeds (possibly returning data determined by the oracle) or fails,
exactly at the points where the Go code checks for an error.  The
mutable fields of the `Devbox` session object (`d.cfg.Packages`, the
nix profile listing, the lockfile entries) are threaded explicitly as
a state `DState`, and every external store call is recorded in an
event trace so that frame properties ("no store call happens", "no
removal happens") can be stated.
-/

/- ### String helpers (Go `strings` package subset) -/

/-- Go `unicode.IsSpace` restricted to the ASCII whitespace characters
(space, tab, newline, carriage return, vertical tab, form feed). -/
def isSpaceGo (c : Char) : Bool :=
  c == ' ' || c == '\t' || c == '\n' || c == '\r' ||
  c == Char.ofNat 11 || c == Char.ofNat 12

/-- Go `strings.TrimSpace`: drop leading and trailing whitespace. -/
def trimSpace (s : String) : String :=
  String.mk (((s.data.dropWhile isSpaceGo).reverse.dropWhile isSpaceGo).reverse)

/-- Does the first list start with the second one? -/
def startsWithL : List Char → List Char → Bool
  | _, [] => true
  | [], _ :: _ => false
  | c :: cs, d :: ds => c == d && startsWithL cs ds

/-- Does the second list occur as a contiguous sublist of the first? -/
def hasSubstrL : List Char → List Char → Bool
  | [], sub => sub.isEmpty
  | c :: cs, sub => startsWithL (c :: cs) sub || hasSubstrL cs sub

/-- Go `strings.Contains s sub`. -/
def goContains (s sub : String) : Bool :=
  hasSubstrL s.data sub.data

/- ### Mutagen wrapper (`internal/cloud/mutagen/wrapper.go`) -/

/-- A mutagen sync session as decoded from the tool's JSON output. -/
structure Session where
  name : String
deriving DecidableEq

/-- Outcome of running the external mutagen process with
`cmd.CombinedOutput()`: success with output, a non-zero exit
(`exec.ExitError`) with combined output, or a failure to run the
process at all (any other error). -/
inductive ExecOutcome where
  | success (out : String)
  | exitErr (out : String)
  | startErr
deriving DecidableEq

/-- Errors returned by `mutagen.List`. -/
inductive ListErr where
  | fromOutput (msg : String)
  | startFailed
  | unmarshalFailed
deriving DecidableEq

/-- The diagnostic substring the mutagen CLI prints when no sessions
match the requested names. -/
def noSessionsMsg : String := "unable to locate requested sessions"

/-- Embedding of `mutagen.List` (wrapper.go lines 55-84).  The JSON
decoding of a successful run is abstracted by the `parse` argument
(`json.Unmarshal`, an external library call). -/
def mutagenList (parse : String → Option (List Session)) (outcome : ExecOutcome) :
    Except ListErr (List Session) :=
  match outcome with
  | ExecOutcome.exitErr out =>
    let errMsg := trimSpace out
    if goContains errMsg noSessionsMsg then Except.ok []
    else Except.error (ListErr.fromOutput errMsg)
  | ExecOutcome.startErr => Except.error ListErr.startFailed
  | ExecOutcome.success out =>
    match parse out with
    | some sessions => Except.ok sessions
    | none => Except.error ListErr.unmarshalFailed

/- ### Package references

The `devpkg.Package` type is not part of the shown slice; only its
callers are.  Its identity operations are modelled from the spec. -/

/-- Modelled from the spec: `canonicalName` is "the name with any
version suffix stripped" (spec section 3, PackageReference); the code
of `devpkg.Package.CanonicalName` is not in the shown slice. -/
def canonicalName (raw : String) : String :=
  String.mk (raw.data.takeWhile (fun c => c != '@'))

/-- Modelled from the spec: `versioned` is the "canonical form with an
explicit version (defaults to `@latest` if unspecified)" (spec section
3); the code of `devpkg.Package.Versioned` is not in the shown slice. -/
def versioned (raw : String) : String :=
  if raw.data.any (fun c => c == '@') then raw else raw ++ "@latest"

/- ### Core data model -/

/-- The three modes of `ensurePackagesAreInstalled`
(packages.go lines 154-161). -/
inductive InstallMode where
  | install
  | uninstall
  | ensure
deriving DecidableEq

/-- Domain errors.  Each constructor corresponds to one error return
site of the embedded Go code. -/
inductive Err where
  | localLockFailed
  | upToDateFailed
  | shellgenFailed
  | prefetchFailed (pkg : String)
  | listFailed
  | profilePathFailed
  | installFailed (pkg : String)
  | removeItemsFailed
  | pluginSymlinksFailed
  | computeEnvFailed
  | lockSaveFailed
  | localUpdateFailed
  | removeCmdFailed (pkg : String)
  | pluginRemoveFailed
  | lockRemoveFailed
  | lockAddFailed
  | saveCfgFailed
  | printReadmeFailed
  | createWrappersFailed
  | packageNotFound (raw : String)
  | validateFailed (raw : String)
  | userMessage (inner : Err)
deriving DecidableEq

/-- Observable events: calls against the external store, user-visible
warnings, and the persistence points. -/
inductive Event where
  | listProfile
  | installPkg (pkg : String)
  | removeIdx (idx : Nat)
  | skipRemove (pkg : String)
  | warnMissing (names : List String)
  | lockSave
  | cacheUpdate
  | cfgSaved
deriving DecidableEq

/-- The mutable state owned by one devbox command invocation:
the declared package list `d.cfg.Packages`, the nix profile listing
(each item represented by its resolved store identity, in listing
order), the lockfile entries (raw references), the last persisted
lockfile and config contents, and the local state cache flag. -/
structure DState where
  cfgPackages : List String
  profile : List String
  lockEntries : List String
  lockSaved : Option (List String)
  savedCfg : Option (List String)
  cacheUpdated : Bool
deriving DecidableEq

/-- Oracles for the external collaborators.  `resolve` maps a raw
package reference to its resolved store identity (the lockfile-backed
resolution used by `nixprofile.ProfileListIndex` to match declared
packages against profile items).  The `...Ok` fields decide whether
the corresponding external call succeeds. -/
structure Env where
  resolve : String → String
  isUpToDate : Option Bool
  localLockOk : Bool
  shellgenOk : Bool
  prefetchOk : String → Bool
  profilePathOk : Bool
  listOk : Bool
  installOk : String → Bool
  removeItemsOk : Bool
  removeCmdOk : String → Bool
  pluginSymlinksOk : Bool
  computeEnvOk : Bool
  localUpdateOk : Bool
  validateExists : String → Option Bool
  pluginRemoveOk : Bool
  lockAddOk : Bool
  lockRemoveOk : Bool
  lockSaveOk : Bool
  saveCfgOk : Bool
  printReadmeOk : Bool
  createWrappersOk : Bool

/-- Result of one embedded operation: outcome, final state, and the
trace of observable events, in order. -/
abbrev DR := Except Err Unit × DState × List Event

/-- Prepend already-recorded events to the trace of a result. -/
def prependTrace (t : List Event) (r : DR) : DR :=
  (r.1, r.2.1, t ++ r.2.2)

/- ### Helper operations of the slice's dependencies -/

/-- Modelled from the spec: `findByCanonicalName(declared, name)`
"signals ambiguous (more than one match) as equivalent to not found"
(spec section 4.1); the code of `Devbox.findPackageByName` is not in
the shown slice.  The query is compared by canonical name. -/
def findPackageByName (cfgPackages : List String) (query : String) : Option String :=
  match cfgPackages.filter (fun p => canonicalName p == canonicalName query) with
  | [x] => some x
  | _ => none

/-- `lo.Uniq`: duplicate-free copy keeping the first occurrence of
each element, in order. -/
def goUniq : List String → List String
  | [] => []
  | x :: xs => x :: (goUniq xs).filter (fun y => decide (y ≠ x))

/-- The declared packages whose resolved identity is missing from the
given profile listing snapshot, in declared order. -/
def pendingOf (env : Env) (s : DState) : List String :=
  s.cfgPackages.filter (fun p => !(s.profile.contains (env.resolve p)))

/-- Embedding of `pendingPackagesForInstallation`
(packages.go lines 357-386): resolve the profile directory, list the
profile once, and keep the declared packages not found in that one
listing snapshot, preserving declared order. -/
def pendingPackagesForInstallation (env : Env) (s : DState) :
    Except Err (List String) × List Event :=
  if env.profilePathOk then
    if env.listOk then
      (Except.ok (pendingOf env s), [Event.listProfile])
    else (Except.error Err.listFailed, [Event.listProfile])
  else (Except.error Err.profilePathFailed, [])

/-- The nixpkgs-prefetch loop at the top of `addPackagesToProfile`
(packages.go lines 247-251), over `d.PackagesAsInputs()`. -/
def prefetchLoop (env : Env) : List String → Except Err Unit
  | [] => Except.ok ()
  | p :: rest =>
    if env.prefetchOk p then prefetchLoop env rest
    else Except.error (Err.prefetchFailed p)

/-- The install loop of `addPackagesToProfile` (packages.go lines
275-290): install pending packages one at a time, in order; the first
failing `nixprofile.ProfileInstall` aborts the loop.  A successful
install appends the resolved identity to the profile listing. -/
def installLoop (env : Env) : List String → DState → DR
  | [], s => (Except.ok (), s, [])
  | pkg :: rest, s =>
    if env.installOk pkg then
      prependTrace [Event.installPkg pkg]
        (installLoop env rest { s with profile := s.profile ++ [env.resolve pkg] })
    else (Except.error (Err.installFailed pkg), s, [Event.installPkg pkg])

/-- Embedding of `addPackagesToProfile` (packages.go lines 237-293):
no-op in uninstall mode; otherwise prefetch, compute the pending
packages, return early when none are pending, and run the install
loop. -/
def addPackagesToProfile (env : Env) (s : DState) (mode : InstallMode) : DR :=
  if mode = InstallMode.uninstall then (Except.ok (), s, [])
  else
    match prefetchLoop env s.cfgPackages with
    | Except.error e => (Except.error e, s, [])
    | Except.ok _ =>
      match pendingPackagesForInstallation env s with
      | (Except.error e, t) => (Except.error e, s, t)
      | (Except.ok pending, t) =>
        if pending.isEmpty then (Except.ok (), s, t)
        else if env.profilePathOk then prependTrace t (installLoop env pending s)
        else (Except.error Err.profilePathFailed, s, t)

/-- Embedding of `extraPackagesInProfile` (packages.go lines 393-429):
list the profile; if the number of declared packages equals the number
of profile items, return no extras without comparing; otherwise return
the profile items (with their listing indices) whose identity matches
no declared package. -/
def extraPackagesInProfile (env : Env) (s : DState) :
    Except Err (List (Nat × String)) × List Event :=
  if env.profilePathOk then
    if env.listOk then
      if s.cfgPackages.length = s.profile.length then
        (Except.ok [], [Event.listProfile])
      else
        (Except.ok ((s.profile.enum).filter
          (fun it => !(s.cfgPackages.any (fun p => env.resolve p == it.2)))),
         [Event.listProfile])
    else (Except.error Err.listFailed, [Event.listProfile])
  else (Except.error Err.profilePathFailed, [])

/-- Modelled from the spec: `nixprofile.ProfileRemoveItems` (called by
`tidyProfile`, not in the shown slice) removes each given item,
identified by its index in the listing snapshot, from the profile
(spec section 4.3 step 6). -/
def profileRemoveItems (profile : List String) (extras : List (Nat × String)) :
    List String :=
  (profile.enum.filter (fun it => decide (it ∉ extras))).map (fun it => it.2)

/-- Embedding of `tidyProfile` (packages.go lines 336-351): compute
the extras and remove them from the profile by index. -/
def tidyProfile (env : Env) (s : DState) : DR :=
  match extraPackagesInProfile env s with
  | (Except.error e, t) => (Except.error e, s, t)
  | (Except.ok extras, t) =>
    if env.profilePathOk then
      if env.removeItemsOk then
        (Except.ok (), { s with profile := profileRemoveItems s.profile extras },
         t ++ extras.map (fun it => Event.removeIdx it.1))
      else (Except.error Err.removeItemsFailed, s, t)
    else (Except.error Err.profilePathFailed, s, t)

/-- Embedding of `syncPackagesToProfile` (packages.go lines 224-232):
add missing packages, then tidy the profile.  Note that `tidyProfile`
runs in every mode. -/
def syncPackagesToProfile (env : Env) (s : DState) (mode : InstallMode) : DR :=
  match addPackagesToProfile env s mode with
  | (Except.error e, s1, t) => (Except.error e, s1, t)
  | (Except.ok _, s1, t) => prependTrace t (tidyProfile env s1)

/-- Embedding of `ensurePackagesAreInstalled` (packages.go lines
166-210): local-cache fast path, shell generation, profile sync,
plugin symlink cleanup, env recomputation, then lockfile tidy, save,
and local-cache update. -/
def ensurePackagesAreInstalled (env : Env) (s : DState) (mode : InstallMode) : DR :=
  if env.localLockOk then
    match env.isUpToDate with
    | none => (Except.error Err.upToDateFailed, s, [])
    | some true => (Except.ok (), s, [])
    | some false =>
      if env.shellgenOk then
        match syncPackagesToProfile env s mode with
        | (Except.error e, s1, t) => (Except.error e, s1, t)
        | (Except.ok _, s1, t) =>
          if env.pluginSymlinksOk then
            if env.computeEnvOk then
              let tidied := s1.lockEntries.filter (fun r => decide (r ∈ s1.cfgPackages))
              let s2 := { s1 with lockEntries := tidied }
              if env.lockSaveOk then
                let s3 := { s2 with lockSaved := some tidied }
                if env.localUpdateOk then
                  (Except.ok (), { s3 with cacheUpdated := true },
                   t ++ [Event.lockSave, Event.cacheUpdate])
                else (Except.error Err.localUpdateFailed, s3, t ++ [Event.lockSave])
              else (Except.error Err.lockSaveFailed, s2, t)
            else (Except.error Err.computeEnvFailed, s1, t)
          else (Except.error Err.pluginSymlinksFailed, s1, t)
      else (Except.error Err.shellgenFailed, s, [])
  else (Except.error Err.localLockFailed, s, [])

/-- Modelled from the spec: `nixprofile.ProfileListIndex` (not in the
shown slice) finds the index of the first profile item whose resolved
identity matches the given one (spec sections 4.1 and 4.3 step 3). -/
def profileIdxOf (ident : String) : List String → Option Nat
  | [] => none
  | it :: rest =>
    if it == ident then some 0
    else (profileIdxOf ident rest).map (fun n => n + 1)

/-- The loop body of `removePackagesFromProfile` (packages.go lines
303-331): for each package, look up its index in the current profile
listing (an internal `ProfileListIndex` call that lists the profile
itself); a failed lookup prints a skip message and continues, a found
index is removed with `nix profile remove` (whose failure aborts). -/
def removeProfileLoop (env : Env) : List String → DState → DR
  | [], s => (Except.ok (), s, [])
  | pkg :: rest, s =>
    match (if env.listOk then profileIdxOf (env.resolve pkg) s.profile
           else none) with
    | none =>
      prependTrace [Event.listProfile, Event.skipRemove pkg] (removeProfileLoop env rest s)
    | some idx =>
      if env.removeCmdOk (env.resolve pkg) then
        prependTrace [Event.listProfile, Event.removeIdx idx]
          (removeProfileLoop env rest { s with profile := s.profile.eraseIdx idx })
      else (Except.error (Err.removeCmdFailed pkg), s, [Event.listProfile])

/-- Embedding of `removePackagesFromProfile` (packages.go lines
295-333). -/
def removePackagesFromProfile (env : Env) (s : DState) (pkgs : List String) : DR :=
  if env.profilePathOk then removeProfileLoop env pkgs s
  else (Except.error Err.profilePathFailed, s, [])

/-- The partition loop at the top of `Devbox.Remove` (packages.go
lines 111-121): split the requested names into found declared packages
(removed from the declared list as they are found) and missing names.
Returns the new declared list, the packages to uninstall, and the
missing names. -/
def removeCollect : List String → List String → List String × List String × List String
  | cfg, [] => (cfg, [], [])
  | cfg, pkg :: rest =>
    match findPackageByName cfg pkg with
    | some found =>
      let cfg1 := cfg.filter (fun p => decide (p ≠ found))
      let r := removeCollect cfg1 rest
      (r.1, found :: r.2.1, r.2.2)
    | none =>
      let r := removeCollect cfg rest
      (r.1, r.2.1, pkg :: r.2.2)

/-- The tail of `Devbox.Remove` after the warning (packages.go lines
131-151): plugin removal, profile removal, reconciliation in uninstall
mode, lockfile entry removal, config save, wrapper creation. -/
def removeFinish (env : Env) (s : DState) (toUninstall : List String) : DR :=
  if env.pluginRemoveOk then
    match removePackagesFromProfile env s toUninstall with
    | (Except.error e, s1, t) => (Except.error e, s1, t)
    | (Except.ok _, s1, t) =>
      match ensurePackagesAreInstalled env s1 InstallMode.uninstall with
      | (Except.error e, s2, t2) => (Except.error e, s2, t ++ t2)
      | (Except.ok _, s2, t2) =>
        if env.lockRemoveOk then
          let s3 := { s2 with
            lockEntries := s2.lockEntries.filter (fun r => decide (r ∉ toUninstall)) }
          if env.saveCfgOk then
            let s4 := { s3 with savedCfg := some s3.cfgPackages }
            if env.createWrappersOk then (Except.ok (), s4, t ++ t2 ++ [Event.cfgSaved])
            else (Except.error Err.createWrappersFailed, s4, t ++ t2 ++ [Event.cfgSaved])
          else (Except.error Err.saveCfgFailed, s3, t ++ t2)
        else (Except.error Err.lockRemoveFailed, s2, t ++ t2)
  else (Except.error Err.pluginRemoveFailed, s, [])

/-- Embedding of `Devbox.Remove` (packages.go lines 107-152): partition
the (deduplicated) requested names, emit one warning listing all the
missing names when there are any, then run the removal pipeline. -/
def Devbox.Remove (env : Env) (s : DState) (pkgs : List String) : DR :=
  let r := removeCollect s.cfgPackages (goUniq pkgs)
  let s1 := { s with cfgPackages := r.1 }
  let t0 := if r.2.2.isEmpty then ([] : List Event) else [Event.warnMissing r.2.2]
  prependTrace t0 (removeFinish env s1 r.2.1)

/-- The collection loop at the top of `Devbox.Add` (packages.go lines
43-64): for each (deduplicated) requested name, skip it when its
versioned form is already declared, otherwise remove any declared
package with the same canonical name (a full `Devbox.Remove`) and
append the versioned form to the declared list and to the list of new
packages.  Returns the outcome, state, collected new packages, and
trace. -/
def addCollectLoop (env : Env) :
    List String → DState → List String → Except Err Unit × DState × List String × List Event
  | [], s, acc => (Except.ok (), s, acc, [])
  | pkg :: rest, s, acc =>
    if versioned pkg ∈ s.cfgPackages then addCollectLoop env rest s acc
    else
      match findPackageByName s.cfgPackages (canonicalName pkg) with
      | some name =>
        match Devbox.Remove env s [name] with
        | (Except.error e, s1, t) => (Except.error e, s1, acc, t)
        | (Except.ok _, s1, t) =>
          let s2 := { s1 with cfgPackages := s1.cfgPackages ++ [versioned pkg] }
          let r := addCollectLoop env rest s2 (acc ++ [versioned pkg])
          (r.1, r.2.1, r.2.2.1, t ++ r.2.2.2)
      | none =>
        let s2 := { s with cfgPackages := s.cfgPackages ++ [versioned pkg] }
        addCollectLoop env rest s2 (acc ++ [versioned pkg])

/-- The validation loop of `Devbox.Add` (packages.go lines 67-75):
`ValidateExists` per new package; an error aborts, a `false` answer
aborts with `ErrPackageNotFound` wrapped with the raw name. -/
def validatePkgs (env : Env) : List String → Except Err Unit
  | [] => Except.ok ()
  | p :: rest =>
    match env.validateExists p with
    | none => Except.error (Err.validateFailed p)
    | some false => Except.error (Err.packageNotFound p)
    | some true => validatePkgs env rest

/-- The tail of `Devbox.Add` after the collection loop (packages.go
lines 66-102): validation, reconciliation in install mode (whose error
is wrapped in a user message), config save, plugin readmes, lockfile
additions, wrapper creation. -/
def addFinish (env : Env) (s : DState) (pkgs : List String) : DR :=
  match validatePkgs env pkgs with
  | Except.error e => (Except.error e, s, [])
  | Except.ok _ =>
    match ensurePackagesAreInstalled env s InstallMode.install with
    | (Except.error e, s1, t) => (Except.error (Err.userMessage e), s1, t)
    | (Except.ok _, s1, t) =>
      if env.saveCfgOk then
        let s2 := { s1 with savedCfg := some s1.cfgPackages }
        if env.printReadmeOk then
          if env.lockAddOk then
            let s3 := { s2 with
              lockEntries := s2.lockEntries ++
                pkgs.filter (fun p => decide (p ∉ s2.lockEntries)) }
            if env.createWrappersOk then (Except.ok (), s3, t ++ [Event.cfgSaved])
            else (Except.error Err.createWrappersFailed, s3, t ++ [Event.cfgSaved])
          else (Except.error Err.lockAddFailed, s2, t ++ [Event.cfgSaved])
        else (Except.error Err.printReadmeFailed, s2, t ++ [Event.cfgSaved])
      else (Except.error Err.saveCfgFailed, s1, t)

/-- Embedding of `Devbox.Add` (packages.go lines 37-103). -/
def Devbox.Add (env : Env) (s : DState) (pkgsNames : List String) : DR :=
  match addCollectLoop env (goUniq pkgsNames) s [] with
  | (Except.error e, s1, _, t) => (Except.error e, s1, t)
  | (Except.ok _, s1, pkgs, t) => prependTrace t (addFinish env s1 pkgs)

deriving instance DecidableEq for Except

/- ### Concrete environments and states for witnesses and counterexamples -/

/-- An environment in which every external call succeeds, resolution
is the identity, and the local state cache reports up to date. -/
def envAllOk : Env := {
  resolve := fun p => p, isUpToDate := some true, localLockOk := true, shellgenOk := true,
  prefetchOk := fun _ => true, profilePathOk := true, listOk := true,
  installOk := fun _ => true, removeItemsOk := true, removeCmdOk := fun _ => true,
  pluginSymlinksOk := true, computeEnvOk := true, localUpdateOk := true,
  validateExists := fun _ => some true, pluginRemoveOk := true, lockAddOk := true,
  lockRemoveOk := true, lockSaveOk := true, saveCfgOk := true, printReadmeOk := true,
  createWrappersOk := true }

/-- Environment for the C1 counterexample: cache stale, `a@1` resolves
to the store identity `idA`. -/
def envC1 : Env := { envAllOk with
  isUpToDate := some false
  resolve := fun p => if p == "a@1" then "idA" else p }

/-- State for the C1 counterexample: one declared package whose
identity is in the profile, plus one extra profile item `idB`. -/
def sC1 : DState := ⟨["a@1"], ["idA", "idB"], [], none, none, false⟩

/- ### Claim C1 -/

/-- Claim C1 counterexample: with one declared package `a@1` (already
installed as `idA`) and an extra profile item `idB`, a reconciliation
in install mode performs a profile removal (`nix profile remove` of
index 1) and the extra item is gone from the final profile, so the
claim that install mode never removes profile items is false.  The
extras computation is not skipped in install mode: `syncPackagesToProfile`
calls `tidyProfile` unconditionally (packages.go lines 224-232). -/
theorem c1_counterexample :
    Event.removeIdx 1 ∈ (ensurePackagesAreInstalled envC1 sC1 InstallMode.install).2.2
    ∧ (ensurePackagesAreInstalled envC1 sC1 InstallMode.install).2.1.profile = ["idA"]
    ∧ sC1.profile = ["idA", "idB"] := by decide

/-- Claim C1 (amended): install mode does not suppress removals; the
profile sync step (install loop followed by extras computation and
removal) behaves identically in install mode and in ensure mode, for
every environment and starting state.  Only uninstall mode skips the
install half, and no mode skips the removal half. -/
theorem c1_sync_behaves_identically_in_install_and_ensure_mode (env : Env) (s : DState) :
    syncPackagesToProfile env s InstallMode.install
      = syncPackagesToProfile env s InstallMode.ensure := rfl

/- ### Claim C3 -/

/-- Claim C3: if the local state cache reports up to date,
`ensurePackagesAreInstalled` returns success immediately in every
mode: the state is unchanged (no install, no removal, no lockfile or
cache modification) and the event trace is empty (no store call). -/
theorem c3_fast_path_returns_immediately (env : Env) (s : DState) (mode : InstallMode)
    (hlock : env.localLockOk = true) (hupd : env.isUpToDate = some true) :
    ensurePackagesAreInstalled env s mode = (Except.ok (), s, []) := by
  simp [ensurePackagesAreInstalled, hlock, hupd]

/-- State used for the C3 witness: a project with one declared,
installed and locked package. -/
def sC3 : DState := ⟨["a@1"], ["a@1"], ["a@1"], none, none, false⟩

/-- Witness for C3 at a concrete input. -/
theorem c3_fast_path_returns_immediately_witness :
    envAllOk.localLockOk = true ∧ envAllOk.isUpToDate = some true
    ∧ ensurePackagesAreInstalled envAllOk sC3 InstallMode.ensure = (Except.ok (), sC3, []) :=
  ⟨rfl, rfl, c3_fast_path_returns_immediately envAllOk sC3 InstallMode.ensure rfl rfl⟩

/- ### Claim C4 -/

/-- Claim C4: whenever the number of declared packages equals the
number of profile items (and the listing itself succeeds),
`extraPackagesInProfile` returns an empty extras list after a single
profile listing, regardless of whether the declared identities and the
profile contents actually coincide. -/
theorem c4_extras_skipped_on_equal_lengths (env : Env) (s : DState)
    (hpath : env.profilePathOk = true) (hlist : env.listOk = true)
    (hlen : s.cfgPackages.length = s.profile.length) :
    extraPackagesInProfile env s = (Except.ok [], [Event.listProfile]) := by
  simp [extraPackagesInProfile, hpath, hlist, hlen]

/-- State used for the C4 witness: one declared package and one
profile item whose identities do NOT match. -/
def sC4 : DState := ⟨["a@1"], ["zzz"], [], none, none, false⟩

/-- Witness for C4 at a concrete input where the declared set and the
profile set genuinely differ (the swap/mismatch scenario) and yet no
extras are reported. -/
theorem c4_extras_skipped_on_equal_lengths_witness :
    envAllOk.profilePathOk = true ∧ envAllOk.listOk = true
    ∧ sC4.cfgPackages.length = sC4.profile.length
    ∧ (∀ p ∈ sC4.cfgPackages, envAllOk.resolve p ∉ sC4.profile)
    ∧ extraPackagesInProfile envAllOk sC4 = (Except.ok [], [Event.listProfile]) :=
  ⟨rfl, rfl, rfl, by decide, c4_extras_skipped_on_equal_lengths envAllOk sC4 rfl rfl rfl⟩

/- ### Claim C9 -/

/-- Claim C9: when the external sync tool exits non-zero
(`exec.ExitError`), `mutagen.List` returns an error whose message is
exactly the trimmed combined process output — except that when that
trimmed output contains the diagnostic string
"unable to locate requested sessions", it returns an empty session
list and no error. -/
theorem c9_list_translates_exit_errors (parse : String → Option (List Session))
    (out : String) :
    mutagenList parse (ExecOutcome.exitErr out)
      = if goContains (trimSpace out) noSessionsMsg then Except.ok []
        else Except.error (ListErr.fromOutput (trimSpace out)) := rfl

/- ### Claim C2 -/

/-- If every package of a list prefetches successfully, the prefetch
loop succeeds. -/
theorem prefetchLoop_ok (env : Env) :
    ∀ l : List String, (∀ p ∈ l, env.prefetchOk p = true) →
    prefetchLoop env l = Except.ok () := by
  intro l
  induction l with
  | nil => intro _; rfl
  | cons p rest ih =>
    intro h
    have hp : env.prefetchOk p = true := h p (List.mem_cons_self p rest)
    simp only [prefetchLoop, hp, if_true]
    exact ih (fun q hq => h q (List.mem_cons_of_mem p hq))

/-- The install loop installs its packages one at a time, in order;
when the packages before `pk` install fine and `pk` fails, the loop
aborts with the install error for `pk`, with exactly the identities of
the earlier packages appended to the profile and with one install
event per attempted package, in order. -/
theorem installLoop_fail (env : Env) (pk : String) (post : List String) :
    ∀ (pre : List String) (s : DState),
    (∀ q ∈ pre, env.installOk q = true) →
    env.installOk pk = false →
    installLoop env (pre ++ pk :: post) s =
      (Except.error (Err.installFailed pk),
       { s with profile := s.profile ++ pre.map env.resolve },
       (pre ++ [pk]).map Event.installPkg) := by
  intro pre
  induction pre with
  | nil =>
    intro s _ hfail
    simp [installLoop, hfail]
  | cons q pre ih =>
    intro s hok hfail
    have hq : env.installOk q = true := hok q (List.mem_cons_self q pre)
    simp only [List.cons_append, installLoop, hq, if_true, List.append_eq]
    rw [ih _ (fun r hr => hok r (List.mem_cons_of_mem q hr)) hfail]
    simp [prependTrace, List.append_assoc]

/-- Claim C2: pending packages are installed one at a time, in
declared order; when the install of the pending package `pk` fails
after the packages `pre` before it succeeded, `ensurePackagesAreInstalled`
aborts with that install error, the identities of `pre` (and only
those) have been added to the profile, and nothing else in the state
changed: the lockfile entries, the saved lockfile, the saved config
and the cache flag are untouched (lockfile `Tidy` and `Save` are never
reached), and the trace holds one listing call followed by the install
events of `pre ++ [pk]` in order. -/
theorem c2_install_failure_aborts_before_save (env : Env) (s : DState)
    (mode : InstallMode) (pre : List String) (pk : String) (post : List String)
    (hmode : mode ≠ InstallMode.uninstall)
    (hlock : env.localLockOk = true) (hupd : env.isUpToDate = some false)
    (hshell : env.shellgenOk = true)
    (hpre : ∀ p ∈ s.cfgPackages, env.prefetchOk p = true)
    (hpath : env.profilePathOk = true) (hlist : env.listOk = true)
    (hpend : pendingOf env s = pre ++ pk :: post)
    (hok : ∀ q ∈ pre, env.installOk q = true)
    (hfail : env.installOk pk = false) :
    ensurePackagesAreInstalled env s mode =
      (Except.error (Err.installFailed pk),
       { s with profile := s.profile ++ pre.map env.resolve },
       Event.listProfile :: (pre ++ [pk]).map Event.installPkg) := by
  have hprefetch : prefetchLoop env s.cfgPackages = Except.ok () := prefetchLoop_ok env _ hpre
  have hempty : (pre ++ pk :: post).isEmpty = false := by
    cases pre <;> rfl
  have hil := installLoop_fail env pk post pre s hok hfail
  have hadd : addPackagesToProfile env s mode =
      (Except.error (Err.installFailed pk),
       { s with profile := s.profile ++ pre.map env.resolve },
       Event.listProfile :: (pre ++ [pk]).map Event.installPkg) := by
    rw [addPackagesToProfile, if_neg hmode, hprefetch]
    simp [pendingPackagesForInstallation, hpath, hlist, hpend, hempty, hil, prependTrace]
  simp [ensurePackagesAreInstalled, hlock, hupd, hshell, syncPackagesToProfile, hadd]

/-- Environment for the C2 witness: cache stale, the install of `b@2`
fails, everything else succeeds. -/
def envC2 : Env := { envAllOk with
  isUpToDate := some false
  installOk := fun p => p != "b@2" }

/-- State for the C2 witness: three declared packages, empty profile. -/
def sC2 : DState := ⟨["a@1", "b@2", "c@3"], [], [], none, none, false⟩

/-- Witness for C2 at a concrete input: with pending packages
`[a@1, b@2, c@3]` and a failing `b@2`, the run aborts with the install
error for `b@2`, only `a@1` got installed, and the lockfile was not
saved. -/
theorem c2_install_failure_aborts_before_save_witness :
    pendingOf envC2 sC2 = ["a@1"] ++ "b@2" :: ["c@3"]
    ∧ envC2.installOk "b@2" = false
    ∧ ensurePackagesAreInstalled envC2 sC2 InstallMode.ensure =
        (Except.error (Err.installFailed "b@2"),
         { sC2 with profile := sC2.profile ++ ["a@1"].map envC2.resolve },
         Event.listProfile :: (["a@1"] ++ ["b@2"]).map Event.installPkg) :=
  ⟨by decide, by decide,
   c2_install_failure_aborts_before_save envC2 sC2 InstallMode.ensure
     ["a@1"] "b@2" ["c@3"] (by decide) rfl rfl rfl (by decide) rfl rfl
     (by decide) (by decide) (by decide)⟩

/- ### Claim C10 -/

/-- A successful index lookup implies the identity is in the listing. -/
theorem mem_of_profileIdxOf_eq_some :
    ∀ {l : List String} {x : String} {i : Nat},
    profileIdxOf x l = some i → x ∈ l := by
  intro l
  induction l with
  | nil => intro x i h; simp [profileIdxOf] at h
  | cons a l ih =>
    intro x i h
    simp only [profileIdxOf] at h
    by_cases hax : (a == x) = true
    · have hax2 : a = x := by simpa using hax
      rw [hax2]
      exact List.mem_cons_self x l
    · rw [if_neg hax] at h
      cases hm : profileIdxOf x l with
      | none => rw [hm] at h; simp at h
      | some j => exact List.mem_cons_of_mem a (ih hm)

/-- The removal loop never fails when the external remove command
always succeeds, and every package whose resolved identity is not in
the profile is reported skipped, regardless of how the other lookups
go. -/
theorem removeProfileLoop_ok (env : Env)
    (hcmd : ∀ ident, env.removeCmdOk ident = true) :
    ∀ (pkgs : List String) (s : DState),
    (removeProfileLoop env pkgs s).1 = Except.ok ()
    ∧ ∀ p ∈ pkgs, env.resolve p ∉ s.profile →
        Event.skipRemove p ∈ (removeProfileLoop env pkgs s).2.2 := by
  intro pkgs
  induction pkgs with
  | nil =>
    intro s
    exact ⟨rfl, by intro p hp; simp at hp⟩
  | cons pkg rest ih =>
    intro s
    cases hlk : (if env.listOk then profileIdxOf (env.resolve pkg) s.profile else none) with
    | none =>
      simp only [removeProfileLoop, hlk, prependTrace]
      refine ⟨(ih s).1, ?_⟩
      intro p hp hmem
      rcases List.mem_cons.mp hp with hpk | hrest
      · rw [hpk]; simp
      · exact List.mem_append_right _ ((ih s).2 p hrest hmem)
    | some idx =>
      have hcm : env.removeCmdOk (env.resolve pkg) = true := hcmd (env.resolve pkg)
      simp only [removeProfileLoop, hlk, hcm, if_true, prependTrace]
      refine ⟨(ih _).1, ?_⟩
      intro p hp hmem
      rcases List.mem_cons.mp hp with hpk | hrest
      · exfalso
        cases hlo : env.listOk with
        | false => rw [hlo] at hlk; simp at hlk
        | true =>
          rw [hlo] at hlk
          simp only [if_true] at hlk
          rw [hpk] at hmem
          exact hmem (mem_of_profileIdxOf_eq_some hlk)
      · refine List.mem_append_right _ ((ih _).2 p hrest ?_)
        intro hmem2
        exact hmem ((List.eraseIdx_sublist s.profile idx).subset hmem2)

/-- Claim C10: `removePackagesFromProfile` never aborts because of a
failed profile-index lookup: provided the profile directory resolves
and the external remove command itself succeeds, the call returns
success for every package list, and every package whose resolved
identity cannot be located in the profile is reported as skipped while
the remaining packages are still processed. -/
theorem c10_removal_skips_missing_packages (env : Env) (s : DState) (pkgs : List String)
    (hpath : env.profilePathOk = true)
    (hcmd : ∀ ident, env.removeCmdOk ident = true) :
    (removePackagesFromProfile env s pkgs).1 = Except.ok ()
    ∧ ∀ p ∈ pkgs, env.resolve p ∉ s.profile →
        Event.skipRemove p ∈ (removePackagesFromProfile env s pkgs).2.2 := by
  simp only [removePackagesFromProfile, hpath, if_true]
  exact removeProfileLoop_ok env hcmd pkgs s

/-- State for the C10 witness: one installed package `x@1`. -/
def sC10 : DState := ⟨[], ["x@1"], [], none, none, false⟩

/-- Witness for C10 at a concrete input: removing `[x@1, ghost]` where
`ghost` is not in the profile succeeds and reports `ghost` skipped. -/
theorem c10_removal_skips_missing_packages_witness :
    envAllOk.profilePathOk = true
    ∧ (removePackagesFromProfile envAllOk sC10 ["x@1", "ghost"]).1 = Except.ok ()
    ∧ Event.skipRemove "ghost" ∈ (removePackagesFromProfile envAllOk sC10 ["x@1", "ghost"]).2.2 :=
  ⟨rfl,
   (c10_removal_skips_missing_packages envAllOk sC10 ["x@1", "ghost"] rfl (fun _ => rfl)).1,
   (c10_removal_skips_missing_packages envAllOk sC10 ["x@1", "ghost"] rfl (fun _ => rfl)).2
     "ghost" (by decide) (by decide)⟩

/- ### Claim C8 -/

/-- The install loop emits only install events and never changes the
declared package list. -/
theorem installLoop_no_lockSave (env : Env) :
    ∀ (l : List String) (s : DState),
    Event.lockSave ∉ (installLoop env l s).2.2
    ∧ (installLoop env l s).2.1.cfgPackages = s.cfgPackages := by
  intro l
  induction l with
  | nil => intro s; exact ⟨by simp [installLoop], rfl⟩
  | cons pkg rest ih =>
    intro s
    cases hp : env.installOk pkg with
    | false => simp [installLoop, hp]
    | true =>
      simp only [installLoop, hp, if_true, prependTrace]
      constructor
      · intro hmem
        rcases List.mem_append.mp hmem with h1 | h2
        · simp at h1
        · exact (ih _).1 h2
      · exact (ih _).2

/-- The pending computation emits at most one listing event. -/
theorem pendingPackages_trace (env : Env) (s : DState) :
    (pendingPackagesForInstallation env s).2 = []
    ∨ (pendingPackagesForInstallation env s).2 = [Event.listProfile] := by
  rw [pendingPackagesForInstallation]
  cases hpath : env.profilePathOk with
  | false => simp [hpath]
  | true =>
    cases hlist : env.listOk with
    | false => simp [hpath, hlist]
    | true => simp [hpath, hlist]

/-- The add phase emits only listing and install events, and never
changes the declared package list. -/
theorem addPackages_no_lockSave (env : Env) (s : DState) (mode : InstallMode) :
    Event.lockSave ∉ (addPackagesToProfile env s mode).2.2
    ∧ (addPackagesToProfile env s mode).2.1.cfgPackages = s.cfgPackages := by
  rw [addPackagesToProfile]
  by_cases hm : mode = InstallMode.uninstall
  · rw [if_pos hm]
    exact ⟨by simp, rfl⟩
  · rw [if_neg hm]
    cases hpf : prefetchLoop env s.cfgPackages with
    | error e => exact ⟨by simp, rfl⟩
    | ok u =>
      cases hpath : env.profilePathOk with
      | false => simp [pendingPackagesForInstallation, hpath]
      | true =>
        cases hlist : env.listOk with
        | false => simp [pendingPackagesForInstallation, hpath, hlist]
        | true =>
          simp only [pendingPackagesForInstallation, hpath, hlist, if_true]
          by_cases hemp : (pendingOf env s).isEmpty = true
          · simp [hemp]
          · simp only [hemp, if_false, Bool.false_eq_true, prependTrace]
            have hI := installLoop_no_lockSave env (pendingOf env s) s
            constructor
            · intro hmem
              rcases List.mem_append.mp hmem with h1 | h2
              · simp at h1
              · exact hI.1 h2
            · exact hI.2

/-- The extras computation emits at most one listing event. -/
theorem extraPackages_trace (env : Env) (s : DState) :
    (extraPackagesInProfile env s).2 = []
    ∨ (extraPackagesInProfile env s).2 = [Event.listProfile] := by
  rw [extraPackagesInProfile]
  cases hpath : env.profilePathOk with
  | false => simp [hpath]
  | true =>
    cases hlist : env.listOk with
    | false => simp [hpath, hlist]
    | true =>
      by_cases hlen : s.cfgPackages.length = s.profile.length <;> simp [hpath, hlist, hlen]

/-- The profile tidy phase emits only listing and removal events, and
never changes the declared package list. -/
theorem tidyProfile_no_lockSave (env : Env) (s : DState) :
    Event.lockSave ∉ (tidyProfile env s).2.2
    ∧ (tidyProfile env s).2.1.cfgPackages = s.cfgPackages := by
  rw [tidyProfile]
  have ht := extraPackages_trace env s
  rcases hex : extraPackagesInProfile env s with ⟨v, t⟩
  rw [hex] at ht
  have ht' : t = [] ∨ t = [Event.listProfile] := ht
  have ht2 : Event.lockSave ∉ t := by
    rcases ht' with h | h <;> rw [h] <;> simp
  cases v with
  | error e => exact ⟨ht2, rfl⟩
  | ok extras =>
    cases hpath : env.profilePathOk with
    | false => exact ⟨by simpa [hpath] using ht2, by simp [hpath]⟩
    | true =>
      cases hrm : env.removeItemsOk with
      | false => exact ⟨by simpa [hpath, hrm] using ht2, by simp [hpath, hrm]⟩
      | true =>
        constructor
        · intro hmem
          have hmem2 : Event.lockSave ∈ t ++ extras.map (fun it => Event.removeIdx it.1) := by
            simpa [hpath, hrm] using hmem
          rcases List.mem_append.mp hmem2 with h1 | h2
          · exact ht2 h1
          · rcases List.mem_map.mp h2 with ⟨it, _, hit⟩
            simp at hit
        · simp [hpath, hrm]

/-- The whole profile sync emits only listing, install and removal
events — in particular never a lockfile save — and never changes the
declared package list. -/
theorem sync_no_lockSave (env : Env) (s : DState) (mode : InstallMode) :
    Event.lockSave ∉ (syncPackagesToProfile env s mode).2.2
    ∧ (syncPackagesToProfile env s mode).2.1.cfgPackages = s.cfgPackages := by
  rw [syncPackagesToProfile]
  have hA := addPackages_no_lockSave env s mode
  rcases ha : addPackagesToProfile env s mode with ⟨v, s1, t⟩
  rw [ha] at hA
  cases v with
  | error e => exact hA
  | ok u =>
    simp only [prependTrace]
    have hT := tidyProfile_no_lockSave env s1
    constructor
    · intro hmem
      rcases List.mem_append.mp hmem with h1 | h2
      · exact hA.1 h1
      · exact hT.1 h2
    · rw [hT.2]; exact hA.2

/-- Either a reconciliation run never saves the lockfile, or the
lockfile it saved is the tidied one: every entry of it is a declared
package. -/
theorem ensure_saved_form (env : Env) (s : DState) (mode : InstallMode) :
    Event.lockSave ∉ (ensurePackagesAreInstalled env s mode).2.2
    ∨ ∃ L, (ensurePackagesAreInstalled env s mode).2.1.lockSaved = some L
         ∧ ∀ ref ∈ L, ref ∈ s.cfgPackages := by
  rw [ensurePackagesAreInstalled]
  cases hlock : env.localLockOk with
  | false => simp [hlock]
  | true =>
    simp only [hlock, if_true]
    cases hupd : env.isUpToDate with
    | none => simp
    | some b =>
      cases b with
      | true => simp
      | false =>
        cases hshell : env.shellgenOk with
        | false => simp [hshell]
        | true =>
          simp only [hshell, if_true]
          have hS := sync_no_lockSave env s mode
          rcases hs : syncPackagesToProfile env s mode with ⟨v, s1, t⟩
          rw [hs] at hS
          cases v with
          | error e => exact Or.inl hS.1
          | ok u =>
            cases hsym : env.pluginSymlinksOk with
            | false => simp [hsym]; exact Or.inl hS.1
            | true =>
              cases hcomp : env.computeEnvOk with
              | false => simp [hsym, hcomp]; exact Or.inl hS.1
              | true =>
                cases hlsv : env.lockSaveOk with
                | false => simp [hsym, hcomp, hlsv]; exact Or.inl hS.1
                | true =>
                  have hmemL : ∀ ref ∈ s1.lockEntries.filter
                      (fun r => decide (r ∈ s1.cfgPackages)), ref ∈ s.cfgPackages := by
                    intro ref href
                    have h2 := List.mem_filter.mp href
                    have h3 := of_decide_eq_true h2.2
                    rw [hS.2] at h3
                    exact h3
                  cases hlu : env.localUpdateOk with
                  | false =>
                    simp only [hsym, hcomp, hlsv, hlu, if_true, Bool.false_eq_true, if_false]
                    exact Or.inr ⟨_, rfl, hmemL⟩
                  | true =>
                    simp only [hsym, hcomp, hlsv, hlu, if_true]
                    exact Or.inr ⟨_, rfl, hmemL⟩

/-- Claim C8: whenever a reconciliation run saves the lockfile, the
tidy pass has already run on it: every entry of the saved lockfile is
a currently declared package, so no orphaned entry is ever persisted. -/
theorem c8_saved_lockfile_has_no_orphans (env : Env) (s : DState) (mode : InstallMode)
    (L : List String)
    (hsave : Event.lockSave ∈ (ensurePackagesAreInstalled env s mode).2.2)
    (hL : (ensurePackagesAreInstalled env s mode).2.1.lockSaved = some L) :
    ∀ ref ∈ L, ref ∈ s.cfgPackages := by
  rcases ensure_saved_form env s mode with h | ⟨L2, hL2, hmem⟩
  · exact absurd hsave h
  · have hLL : L = L2 := by
      have := hL.symm.trans hL2
      exact Option.some.inj this
    rw [hLL]
    exact hmem

/-- Environment for the C8 witness: all calls succeed, cache stale. -/
def envC8 : Env := { envAllOk with isUpToDate := some false }

/-- State for the C8 witness: one declared and installed package, and
a lockfile holding an orphaned entry `stale@9` for a package that is
no longer declared. -/
def sC8 : DState := ⟨["a@1"], ["a@1"], ["a@1", "stale@9"], none, none, false⟩

/-- Witness for C8 at a concrete input: the run saves the lockfile,
and the saved lockfile has dropped the orphaned `stale@9` entry, every
remaining entry being declared. -/
theorem c8_saved_lockfile_has_no_orphans_witness :
    Event.lockSave ∈ (ensurePackagesAreInstalled envC8 sC8 InstallMode.ensure).2.2
    ∧ (ensurePackagesAreInstalled envC8 sC8 InstallMode.ensure).2.1.lockSaved = some ["a@1"]
    ∧ sC8.lockEntries = ["a@1", "stale@9"]
    ∧ ∀ ref ∈ ["a@1"], ref ∈ sC8.cfgPackages :=
  ⟨by decide, by decide, rfl,
   c8_saved_lockfile_has_no_orphans envC8 sC8 InstallMode.ensure ["a@1"]
     (by decide) (by decide)⟩

/- ### Claim C7 -/

/-- A successful by-name lookup inverts to a singleton filter. -/
theorem find_filter_of_eq_some {cfg : List String} {q r : String}
    (h : findPackageByName cfg q = some r) :
    cfg.filter (fun p => canonicalName p == canonicalName q) = [r] := by
  rw [findPackageByName] at h
  rcases hf : cfg.filter (fun p => canonicalName p == canonicalName q) with _ | ⟨a, _ | ⟨b, l⟩⟩
  · rw [hf] at h; exact absurd h (by simp)
  · rw [hf] at h
    rw [Option.some.inj h]
  · rw [hf] at h; exact absurd h (by simp)

/-- Removing the package found for one name does not change the lookup
outcome for a name that was not found. -/
theorem find_none_after_removal {cfg : List String} {x y fx : String}
    (hx : findPackageByName cfg x = some fx)
    (hy : findPackageByName cfg y = none) :
    findPackageByName (cfg.filter (fun p => decide (p ≠ fx))) y = none := by
  have hfx := find_filter_of_eq_some hx
  have hfx_mem : fx ∈ cfg.filter (fun p => canonicalName p == canonicalName x) := by
    rw [hfx]; exact List.mem_singleton_self fx
  have hcanfx : canonicalName fx = canonicalName x := by
    have h2 := (List.mem_filter.mp hfx_mem).2
    simpa using h2
  have hxy : canonicalName x ≠ canonicalName y := by
    intro heq
    have hfun : (fun p => canonicalName p == canonicalName y)
        = (fun p => canonicalName p == canonicalName x) := by
      funext p; rw [heq]
    have h2 : findPackageByName cfg y = some fx := by
      rw [findPackageByName, hfun, hfx]
    rw [h2] at hy
    exact Option.noConfusion hy
  have hff : (cfg.filter (fun p => decide (p ≠ fx))).filter
        (fun p => canonicalName p == canonicalName y)
      = cfg.filter (fun p => canonicalName p == canonicalName y) := by
    rw [List.filter_filter]
    apply List.filter_congr
    intro a _
    by_cases hc : (canonicalName a == canonicalName y) = true
    · have ha_ne : a ≠ fx := by
        intro heq2
        rw [heq2] at hc
        have h3 : canonicalName fx = canonicalName y := by simpa using hc
        exact hxy (hcanfx.symm.trans h3)
      simp [hc, ha_ne]
    · simp only [Bool.not_eq_true] at hc
      simp [hc]
  rw [findPackageByName, hff]
  rw [findPackageByName] at hy
  exact hy

/-- The partition loop of `Devbox.Remove` on `[x, y]` with `x` found
and `y` missing produces the same declared list and uninstall list as
on `[x]` alone, plus `y` in the missing list. -/
theorem removeCollect_found_missing (cfg : List String) (x y fx : String)
    (hx : findPackageByName cfg x = some fx)
    (hy : findPackageByName cfg y = none) :
    removeCollect cfg [x, y] = ((cfg.filter (fun p => decide (p ≠ fx))), [fx], [y])
    ∧ removeCollect cfg [x] = ((cfg.filter (fun p => decide (p ≠ fx))), [fx], []) := by
  have hy2 := find_none_after_removal hx hy
  simp only [ne_eq, decide_not] at hy2
  constructor
  · simp [removeCollect, hx, hy2]
  · simp [removeCollect, hx]

/-- Claim C7: requesting removal of `[x, y]` where `x` is declared
(found as `fx`) and `y` is not found behaves exactly like removing
`[x]` alone — same outcome (so `y` never makes the removal of `x`
fail) and same final state (so `x` is removed from the declared list,
profile and lockfile exactly as without `y`) — except that one warning
listing the missing name `y` is emitted first. -/
theorem c7_missing_names_never_abort_removal (env : Env) (s : DState) (x y fx : String)
    (hx : findPackageByName s.cfgPackages x = some fx)
    (hy : findPackageByName s.cfgPackages y = none) :
    (Devbox.Remove env s [x, y]).1 = (Devbox.Remove env s [x]).1
    ∧ (Devbox.Remove env s [x, y]).2.1 = (Devbox.Remove env s [x]).2.1
    ∧ (Devbox.Remove env s [x, y]).2.2
        = Event.warnMissing [y] :: (Devbox.Remove env s [x]).2.2 := by
  have hne : x ≠ y := by
    intro h
    rw [h] at hx
    exact Option.noConfusion (hx.symm.trans hy)
  have hne2 : y ≠ x := Ne.symm hne
  have hguxy : goUniq [x, y] = [x, y] := by simp [goUniq, hne2]
  have hgux : goUniq [x] = [x] := by simp [goUniq]
  have hc := removeCollect_found_missing s.cfgPackages x y fx hx hy
  refine ⟨?_, ?_, ?_⟩ <;>
    simp [Devbox.Remove, hguxy, hgux, hc.1, hc.2, prependTrace]

/-- State for the C7 witness: one declared/installed/locked package
`x@1`. -/
def sC7 : DState := ⟨["x@1"], ["x@1"], ["x@1"], none, none, false⟩

/-- Witness for C7 at a concrete input: removing `[x, ghost]` equals
removing `[x]` except for the warning about `ghost`. -/
theorem c7_missing_names_never_abort_removal_witness :
    findPackageByName sC7.cfgPackages "x" = some "x@1"
    ∧ findPackageByName sC7.cfgPackages "ghost" = none
    ∧ (Devbox.Remove envAllOk sC7 ["x", "ghost"]).2.2
        = Event.warnMissing ["ghost"] :: (Devbox.Remove envAllOk sC7 ["x"]).2.2 :=
  ⟨by decide, by decide,
   (c7_missing_names_never_abort_removal envAllOk sC7 "x" "ghost" "x@1"
     (by decide) (by decide)).2.2⟩

/- ### Claim C5 -/

/-- State for the C5 theorems: an initially empty project. -/
def sC5 : DState := ⟨[], [], [], none, none, false⟩

/-- Claim C5 counterexample: adding `[a@1, b@2, a@2]` to an empty
project leaves exactly one entry with canonical name `a` (namely
`a@2`), but that entry does NOT sit at the position of first
declaration relative to `b`: the resulting declared list is
`[b@2, a@2]`, with `a` after `b`, because the replacement removes the
old entry and appends the new one at the end (packages.go lines
56-63). -/
theorem c5_counterexample :
    (Devbox.Add envAllOk sC5 ["a@1", "b@2", "a@2"]).2.1.cfgPackages = ["b@2", "a@2"]
    ∧ ((Devbox.Add envAllOk sC5 ["a@1", "b@2", "a@2"]).2.1.cfgPackages.filter
        (fun p => canonicalName p == canonicalName "a@1")) = ["a@2"]
    ∧ ¬ ((Devbox.Add envAllOk sC5 ["a@1", "b@2", "a@2"]).2.1.cfgPackages.findIdx
          (fun p => canonicalName p == canonicalName "a@1")
        < (Devbox.Add envAllOk sC5 ["a@1", "b@2", "a@2"]).2.1.cfgPackages.findIdx
          (fun p => canonicalName p == canonicalName "b@2")) := by decide

/-- Claim C5 (amended): on a canonical-name conflict exactly one entry
for that canonical name survives in the declared list — the newly
added versioned form — but it is appended at the END of the list
rather than kept at the position of first declaration: for the spec's
own example `[a@1, b@2, a@2]` the effective declared list is
`[b@2, a@2]`, the only canonical-`a` entry being the last element,
after `b`. -/
theorem c5_replacement_appends_at_end :
    (Devbox.Add envAllOk sC5 ["a@1", "b@2", "a@2"]).2.1.cfgPackages = ["b@2", "a@2"]
    ∧ ((Devbox.Add envAllOk sC5 ["a@1", "b@2", "a@2"]).2.1.cfgPackages.filter
        (fun p => canonicalName p == canonicalName "a@1")) = ["a@2"]
    ∧ (Devbox.Add envAllOk sC5 ["a@1", "b@2", "a@2"]).2.1.cfgPackages.getLast?
        = some "a@2" := by decide

/- ### Claim C6 -/

/-- Environment for the C6 counterexample: `a@2` fails existence
validation, everything else succeeds. -/
def envC6 : Env := { envAllOk with validateExists := fun p => some (p != "a@2") }

/-- State for the C6 counterexample: `a@1` declared, installed and
locked. -/
def sC6 : DState := ⟨["a@1"], ["a@1"], ["a@1"], none, none, false⟩

/-- Claim C6 counterexample: `Add(a@2)` with `a@1` declared triggers
the canonical-name replacement, which runs a full `Remove(a@1)` —
touching the profile (the item is uninstalled), the lockfile (the
entry is dropped) and even saving the config — BEFORE the existence
validation of `a@2` fails with `PackageNotFoundError`.  So the claim
that a validation failure comes before the profile or lockfile has
been touched in any way is false. -/
theorem c6_counterexample :
    (Devbox.Add envC6 sC6 ["a@2"]).1 = Except.error (Err.packageNotFound "a@2")
    ∧ (Devbox.Add envC6 sC6 ["a@2"]).2.1.profile ≠ sC6.profile
    ∧ (Devbox.Add envC6 sC6 ["a@2"]).2.1.lockEntries ≠ sC6.lockEntries
    ∧ (Devbox.Add envC6 sC6 ["a@2"]).2.1.savedCfg ≠ sC6.savedCfg := by decide

/-- The takeWhile of an append when the whole first part satisfies the
predicate. -/
theorem takeWhile_append_of_all {p : Char → Bool} :
    ∀ {l m : List Char}, (∀ c ∈ l, p c = true) →
    (l ++ m).takeWhile p = l ++ m.takeWhile p := by
  intro l
  induction l with
  | nil => intro m _; rfl
  | cons c l ih =>
    intro m h
    have hc := h c (List.mem_cons_self c l)
    simp [List.takeWhile_cons, hc, ih (fun d hd => h d (List.mem_cons_of_mem c hd))]

/-- Adding the default version suffix does not change the canonical
name. -/
theorem canonical_versioned (raw : String) : canonicalName (versioned raw) = canonicalName raw := by
  rw [versioned]
  by_cases h : raw.data.any (fun c => c == '@') = true
  · rw [if_pos h]
  · rw [if_neg h]
    have hall : ∀ c ∈ raw.data, (c != '@') = true := by
      intro c hc
      rw [List.any_eq_true] at h
      push_neg at h
      have h2 := h c hc
      simp only [Bool.not_eq_true] at h2
      simp [bne, h2]
    have h0 : ("@latest".data.takeWhile (fun c => c != '@')) = [] := by decide
    rw [canonicalName, canonicalName, String.data_append,
      takeWhile_append_of_all hall, h0, List.append_nil,
      List.takeWhile_eq_self_iff.mpr hall]

/-- Canonicalization is idempotent. -/
theorem canonical_idem (raw : String) : canonicalName (canonicalName raw) = canonicalName raw := by
  rw [canonicalName, canonicalName]
  show String.mk ((raw.data.takeWhile _).takeWhile _) = _
  rw [List.takeWhile_idem]

/-- When no declared package matches the canonical name, the lookup
returns none. -/
theorem find_none_of_no_match {cfg : List String} {q : String}
    (h : ∀ p ∈ cfg, canonicalName p ≠ canonicalName q) :
    findPackageByName cfg q = none := by
  rw [findPackageByName]
  have hf : cfg.filter (fun p => canonicalName p == canonicalName q) = [] := by
    rw [List.filter_eq_nil_iff]
    intro a ha
    simpa using h a ha
  rw [hf]

/-- When no requested package shares a canonical name with a declared
package or with another requested package, the collection loop of
`Devbox.Add` performs no replacement removal: it only appends the
versioned forms to the declared list, collects them, succeeds, and
emits no event. -/
theorem addCollect_no_replacement (env : Env) :
    ∀ (l : List String) (s : DState) (acc : List String),
    (∀ pkg ∈ l, ∀ q ∈ s.cfgPackages, canonicalName q ≠ canonicalName pkg) →
    l.Pairwise (fun a b => canonicalName a ≠ canonicalName b) →
    addCollectLoop env l s acc
      = (Except.ok (), { s with cfgPackages := s.cfgPackages ++ l.map versioned },
         acc ++ l.map versioned, []) := by
  intro l
  induction l with
  | nil =>
    intro s acc _ _
    simp [addCollectLoop]
  | cons pkg rest ih =>
    intro s acc hnew hpw
    have hnotmem : versioned pkg ∉ s.cfgPackages := by
      intro hmem
      exact hnew pkg (List.mem_cons_self pkg rest) (versioned pkg) hmem
        (canonical_versioned pkg)
    have hfind : findPackageByName s.cfgPackages (canonicalName pkg) = none := by
      apply find_none_of_no_match
      intro p hp
      rw [canonical_idem]
      exact hnew pkg (List.mem_cons_self pkg rest) p hp
    have hnew2 : ∀ pkg2 ∈ rest, ∀ q ∈ s.cfgPackages ++ [versioned pkg],
        canonicalName q ≠ canonicalName pkg2 := by
      intro pkg2 h2 q hq
      rcases List.mem_append.mp hq with hq1 | hq2
      · exact hnew pkg2 (List.mem_cons_of_mem pkg h2) q hq1
      · rw [List.mem_singleton.mp hq2, canonical_versioned]
        exact (List.pairwise_cons.mp hpw).1 pkg2 h2
    simp only [addCollectLoop, if_neg hnotmem, hfind]
    rw [ih { s with cfgPackages := s.cfgPackages ++ [versioned pkg] }
      (acc ++ [versioned pkg]) hnew2 (List.pairwise_cons.mp hpw).2]
    simp [List.append_assoc]

/-- Claim C6 (amended): provided no requested package shares a
canonical name with an already declared package or with another
requested package (so no replacement removal is triggered), a failed
existence validation aborts `Devbox.Add` with that error before any
install is attempted and before the profile, the lockfile, the saved
lockfile or the saved config are touched in any way — only the
in-memory declared list has been extended, and no store event was
emitted.  (When a replacement IS triggered, the embedded `Remove` may
mutate profile, lockfile and saved config before validation runs; see
the counterexample.) -/
theorem c6_validation_aborts_before_mutation (env : Env) (s : DState)
    (names : List String) (e : Err)
    (hnew : ∀ pkg ∈ goUniq names, ∀ q ∈ s.cfgPackages,
      canonicalName q ≠ canonicalName pkg)
    (hpw : (goUniq names).Pairwise (fun a b => canonicalName a ≠ canonicalName b))
    (hval : validatePkgs env ((goUniq names).map versioned) = Except.error e) :
    Devbox.Add env s names
      = (Except.error e,
         { s with cfgPackages := s.cfgPackages ++ (goUniq names).map versioned },
         []) := by
  simp [Devbox.Add, addCollect_no_replacement env (goUniq names) s [] hnew hpw,
    addFinish, hval, prependTrace]

/-- Environment for the C6 amended witness: existence validation
always fails. -/
def envC6w : Env := { envAllOk with validateExists := fun _ => some false }

/-- State for the C6 amended witness: empty project. -/
def sC6w : DState := ⟨[], ["keep"], ["keep@1"], none, none, false⟩

/-- Witness for the amended C6 at a concrete input: adding an
undeclared package that fails validation leaves the profile, the
lockfile, the saved lockfile and the saved config untouched. -/
theorem c6_validation_aborts_before_mutation_witness :
    (∀ pkg ∈ goUniq ["nosuch"], ∀ q ∈ sC6w.cfgPackages,
      canonicalName q ≠ canonicalName pkg)
    ∧ validatePkgs envC6w ((goUniq ["nosuch"]).map versioned)
        = Except.error (Err.packageNotFound "nosuch@latest")
    ∧ Devbox.Add envC6w sC6w ["nosuch"]
        = (Except.error (Err.packageNotFound "nosuch@latest"),
           { sC6w with cfgPackages := sC6w.cfgPackages ++ (goUniq ["nosuch"]).map versioned },
           []) :=
  ⟨by decide, by decide,
   c6_validation_aborts_before_mutation envC6w sC6w ["nosuch"]
     (Err.packageNotFound "nosuch@latest") (by decide) (by decide) (by decide)⟩
